import Mathlib

/-!
Verification of the expense-tracker service (`src/main.py`, `src/models.py`).

The embedding models:
* calendar dates with proleptic-Gregorian ordinals (the semantics of Python's
  `datetime.date`: `toordinal`, validity, comparison, leap years);
* the `Expense` record (`src/models.py`) with `amount` as an exact rational;
* the request handlers of `src/main.py`: `create_expense`, `read_expenses`,
  `delete_expense`, `monthly_summary`, `weekly_summary`,
  `category_summary_last_month`.

Fallible date construction (`datetime.date(y, m, d)` raising `ValueError`,
`strptime` parse failures, ordinal overflow) is modelled with `Option`:
a handler that would raise before returning a payload yields `none`.
-/

namespace ExpenseTracker

/-- A calendar date, as stored in the `date` column and handled by
`datetime.date`. -/
structure Date where
  year : Nat
  month : Nat
  day : Nat
deriving DecidableEq, Repr

/-- Gregorian leap-year rule, as implemented by `datetime`/`calendar.isleap`. -/
def isLeap (y : Nat) : Bool :=
  y % 4 == 0 && (y % 100 != 0 || y % 400 == 0)

/-- Number of days in month `m` of year `y` (`calendar.monthrange` semantics). -/
def daysInMonth (y m : Nat) : Nat :=
  if m = 2 then (if isLeap y then 29 else 28)
  else if m = 4 ∨ m = 6 ∨ m = 9 ∨ m = 11 then 30
  else 31

/-- Validity of a date, exactly the check `datetime.date.__new__` performs
(`MINYEAR = 1`, `MAXYEAR = 9999`). -/
def Date.Valid (d : Date) : Prop :=
  1 ≤ d.year ∧ d.year ≤ 9999 ∧ 1 ≤ d.month ∧ d.month ≤ 12 ∧
    1 ≤ d.day ∧ d.day ≤ daysInMonth d.year d.month

instance (d : Date) : Decidable d.Valid := by
  unfold Date.Valid; infer_instance

/-- `datetime.date(y, m, d)` on Python ints: `some` date on success, `none`
when the constructor raises `ValueError`. -/
def mkDate (y m d : Int) : Option Date :=
  if 1 ≤ y ∧ y ≤ 9999 ∧ 1 ≤ m ∧ m ≤ 12 ∧ 1 ≤ d ∧
      d ≤ (daysInMonth y.toNat m.toNat : Int) then
    some ⟨y.toNat, m.toNat, d.toNat⟩
  else none

/-- Days in all years strictly before year `y` (the quantity
`_days_before_year` of CPython's `datetime`). -/
def daysBeforeYear (y : Nat) : Nat :=
  365 * (y - 1) + (y - 1) / 4 - (y - 1) / 100 + (y - 1) / 400

/-- Days in year `y` strictly before month `m` (`_days_before_month`). -/
def daysBeforeMonth (y m : Nat) : Nat :=
  ((List.range (m - 1)).map (fun i => daysInMonth y (i + 1))).sum

/-- `datetime.date.toordinal`: day count in the proleptic Gregorian calendar,
with 0001-01-01 ↦ 1.  Chronological order on valid dates is `≤` on ordinals,
which is how both `datetime.date` comparison and the SQL `Date` column
comparisons in `main.py` are modelled. -/
def toordinal (d : Date) : Nat :=
  daysBeforeYear d.year + daysBeforeMonth d.year d.month + d.day

/-- `date.max.toordinal()`, i.e. `toordinal ⟨9999, 12, 31⟩`. -/
def maxOrdinal : Nat := 3652059

/-- Number of days in year `y`. -/
def daysInYear (y : Nat) : Nat := if isLeap y then 366 else 365

/-- Ordinal of January 1 of year `y`. -/
def jan1Ord (y : Nat) : Nat := daysBeforeYear y + 1

/-- `date(y, 1, 1).weekday()`: day of week with Monday = 0. Ordinal 1
(0001-01-01) is a Monday. -/
def firstWeekday (y : Nat) : Nat := (jan1Ord y + 6) % 7

/-- The expense record of `src/models.py` (`class Expense`): integer primary
key `id`, `title`, `amount` (exact rational standing for the monetary value),
`category`, calendar `date`. -/
structure Expense where
  id : Nat
  title : String
  amount : ℚ
  category : String
  date : Date
deriving DecidableEq, Repr

/-- Python 3 `round(x, 2)` on an exact value: scale by 100, round half to
even, unscale. -/
def round2 (q : ℚ) : ℚ :=
  let y := 100 * q
  let f : ℤ := ⌊y⌋
  let r : ℤ :=
    if y - f < 1/2 then f
    else if (1:ℚ)/2 < y - f then f + 1
    else if f % 2 = 0 then f else f + 1
  (r : ℚ) / 100

/-!  The service state and the handlers of `src/main.py`. -/

/-- Modelled from the spec: `src/schemas.py` (imported by `main.py` but not
part of the sources) defines `ExpenseCreate`, the validated create-request
body — "title (text), amount (number), category (text), date (calendar date)
— all required". -/
structure ExpenseCreate where
  title : String
  amount : ℚ
  category : String
  date : Date
deriving DecidableEq, Repr

/-- The persistent store: the `expenses` table plus the auto-increment
counter backing the integer primary key.  Fresh databases start the counter
at 1 (the spec: the system assigns an id ≥ 1). -/
structure DB where
  rows : List Expense
  nextId : Nat
deriving Repr

/-- Well-formedness maintained by the storage engine: the counter is at
least 1 and strictly dominates every stored primary key (hence ids are
fresh and unique). -/
def DB.WF (db : DB) : Prop :=
  1 ≤ db.nextId ∧ ∀ r ∈ db.rows, r.id < db.nextId

/-- `POST /expenses/` (`create_expense` in `main.py`): build an `Expense`
from the request body, let the store assign the primary key, commit, and
return the refreshed (fully populated) record. -/
def create_expense (inp : ExpenseCreate) (db : DB) : DB × Expense :=
  let e : Expense :=
    { id := db.nextId, title := inp.title, amount := inp.amount,
      category := inp.category, date := inp.date }
  (⟨db.rows ++ [e], db.nextId + 1⟩, e)

/-- `GET /expenses/` (`read_expenses` in `main.py`): start from
`select(Expense)` and add `date >= from_date` / `date <= to_date` clauses
when the corresponding query parameter is present (a `date` object is always
truthy, so `if from_date:` means "supplied"). -/
def read_expenses (from_date to_date : Option Date) (rows : List Expense) :
    List Expense :=
  let q1 := match from_date with
    | some fd => rows.filter (fun r => decide (toordinal fd ≤ toordinal r.date))
    | none => rows
  match to_date with
  | some td => q1.filter (fun r => decide (toordinal r.date ≤ toordinal td))
  | none => q1

/-- `DELETE /expenses/{expense_id}` (`delete_expense` in `main.py`): select
the record with the given primary key; if absent raise 404 (modelled as the
flag `false`, state untouched); otherwise delete that record and return the
confirmation (`true`). -/
def delete_expense (eid : Nat) (db : DB) : DB × Bool :=
  match db.rows.find? (fun r => r.id == eid) with
  | none => (db, false)
  | some _ => (⟨db.rows.eraseP (fun r => r.id == eid), db.nextId⟩, true)

/-- Response of `GET /expenses/summary/monthly`. -/
structure MonthlyOut where
  year : Int
  month : Int
  total_expense : ℚ
deriving DecidableEq, Repr

/-- `GET /expenses/summary/monthly` (`monthly_summary` in `main.py`):
`start_date = date(year, month, 1)`;
`end_date = date(year+1, 1, 1) if month == 12 else date(year, month+1, 1)`;
sum `amount` over `start_date <= date < end_date` (SQL `SUM` of no rows is
`NULL`, turned into `0.0` by `or 0.0` — the empty Lean sum is `0`); round to
2 places.  `none` models a `ValueError` raised by a `date` constructor. -/
def monthly_summary (year month : Int) (rows : List Expense) :
    Option MonthlyOut :=
  match mkDate year month 1 with
  | none => none
  | some start_date =>
    match (if month = 12 then mkDate (year + 1) 1 1
           else mkDate year (month + 1) 1) with
    | none => none
    | some end_date =>
      let total := ((rows.filter (fun r =>
          decide (toordinal start_date ≤ toordinal r.date ∧
                  toordinal r.date < toordinal end_date))).map
        (fun r => r.amount)).sum
      some { year := year, month := month, total_expense := round2 total }

/-- Ordinal of `datetime.strptime(f"{y}-W{week}-1", "%Y-W%W-%w").date()` for
`1 ≤ y ≤ 9999`, `0 ≤ week ≤ 53` (the domain the `%Y`/`%W` patterns accept):
CPython's `_strptime._calc_julian_from_U_or_W` with `week_starts_Mon = True`
and day-of-week 0 (Monday, from the `%w` value `1`), followed by the
`julian <= 0` year rollback and `fromordinal((julian - 1) + jan1.toordinal())`. -/
def strptimeYWMonday (y week : Nat) : Int :=
  let fw := firstWeekday y
  let julian : Int :=
    if week = 0 then 1 - (fw : Int)
    else 1 + ((7 - fw) % 7 : Nat) + 7 * ((week : Int) - 1)
  if julian ≤ 0 then (jan1Ord (y - 1) : Int) + (julian + daysInYear (y - 1)) - 1
  else (jan1Ord y : Int) + julian - 1

/-- Response of `GET /expenses/summary/weekly`. -/
structure WeeklyOut where
  year : Int
  week : Int
  total_expense : ℚ
deriving DecidableEq, Repr

/-- `GET /expenses/summary/weekly` (`weekly_summary` in `main.py`):
`start_date = datetime.strptime(f"{year}-W{week}-1", "%Y-W%W-%w").date()`;
`end_date = start_date + timedelta(days=7)`; sum over the half-open range
and round.  `none` models the exceptions: `strptime` rejects years whose
decimal form is not 4 digits (`%Y` is `\d\d\d\d`) and weeks outside 0–53
(`%W`), `fromordinal` rejects ordinals outside `1..maxOrdinal`, and
`start_date + timedelta(days=7)` overflows past `date.max`. -/
def weekly_summary (year week : Int) (rows : List Expense) :
    Option WeeklyOut :=
  if 1000 ≤ year ∧ year ≤ 9999 ∧ 0 ≤ week ∧ week ≤ 53 then
    let s := strptimeYWMonday year.toNat week.toNat
    if 1 ≤ s ∧ s + 7 ≤ (maxOrdinal : Int) then
      let total := ((rows.filter (fun r =>
          decide (s ≤ (toordinal r.date : Int) ∧
                  (toordinal r.date : Int) < s + 7))).map
        (fun r => r.amount)).sum
      some { year := year, week := week, total_expense := round2 total }
    else none
  else none

/-- `strftime("%B")`: full month name. -/
def monthName : Nat → String
  | 1 => "January" | 2 => "February" | 3 => "March" | 4 => "April"
  | 5 => "May" | 6 => "June" | 7 => "July" | 8 => "August"
  | 9 => "September" | 10 => "October" | 11 => "November" | 12 => "December"
  | _ => ""

/-- Models `date(y, m, 1) - timedelta(days=1)` from the `datetime` library:
the calendar predecessor of the first day of month `(y, m)` (the last day of
the previous month).  `lastDayPrevMonth_ord` below certifies it against the
ordinal arithmetic. -/
def lastDayPrevMonth (y m : Nat) : Date :=
  if m = 1 then ⟨y - 1, 12, 31⟩ else ⟨y, m - 1, daysInMonth y (m - 1)⟩

/-- Response of `GET /expenses/summary/last-month-category`. -/
structure CatOut where
  month : String
  category_wise_total : List (String × ℚ)
deriving DecidableEq, Repr

/-- `GET /expenses/summary/last-month-category`
(`category_summary_last_month` in `main.py`), with `date.today()` passed as
the `today` argument: `first_day_this_month = date(today.year, today.month, 1)`;
`last_day_last_month = first_day_this_month - timedelta(days=1)` (raises
`OverflowError` when today is in January of year 1 — modelled as `none`);
`first_day_last_month` = day 1 of that month; `SUM(amount)` grouped by
`category` over `first_day_last_month <= date <= last_day_last_month`
(`GROUP BY` emits one row per category that has at least one matching
record, here in first-occurrence order), each total rounded. -/
def category_summary_last_month (today : Date) (rows : List Expense) :
    Option CatOut :=
  if today.year = 1 ∧ today.month = 1 then none
  else
    let ldlm := lastDayPrevMonth today.year today.month
    let fdlm : Date := ⟨ldlm.year, ldlm.month, 1⟩
    let matching := rows.filter (fun r =>
      decide (toordinal fdlm ≤ toordinal r.date ∧
              toordinal r.date ≤ toordinal ldlm))
    let cats := (matching.map (fun r => r.category)).dedup
    some { month := monthName fdlm.month ++ " " ++ toString fdlm.year,
           category_wise_total := cats.map (fun c =>
             (c, round2 (((matching.filter
                   (fun r => r.category == c)).map (fun r => r.amount)).sum))) }

/-!  Spec-side definitions (written from the words of the spec, for the
refinement statements). -/

/-- Spec §4.4: "start = first calendar day of (year, month)". -/
def specMonthStart (year month : Int) : Date := ⟨year.toNat, month.toNat, 1⟩

/-- Spec §4.4: "end = first calendar day of the following month, with
explicit year-rollover when month = 12 (end = Jan 1 of year+1)". -/
def specMonthEnd (year month : Int) : Date :=
  if month = 12 then ⟨year.toNat + 1, 1, 1⟩ else ⟨year.toNat, month.toNat + 1, 1⟩

/-- Spec §4.5: the number of Mondays among the days `a ≤ k ≤ b` (ordinals);
ordinal `k` is a Monday exactly when `k % 7 = 1`, since ordinal 1
(0001-01-01) is a Monday. -/
def countMondays (a b : Nat) : Nat :=
  ((Finset.Icc a b).filter (fun k => k % 7 = 1)).card

/-!  Supporting lemmas. -/

theorem daysInMonth_ge (y m : Nat) : 28 ≤ daysInMonth y m := by
  unfold daysInMonth
  split
  · split <;> omega
  · split <;> omega

theorem mkDate_day1 (y m : Int) (h1 : 1 ≤ y) (h2 : y ≤ 9999) (h3 : 1 ≤ m)
    (h4 : m ≤ 12) : mkDate y m 1 = some ⟨y.toNat, m.toNat, 1⟩ := by
  have h28 := daysInMonth_ge y.toNat m.toNat
  unfold mkDate
  rw [if_pos]
  · rfl
  · refine ⟨h1, h2, h3, h4, by omega, by omega⟩

theorem round2_zero : round2 0 = 0 := by
  norm_num [round2]

/-- Membership characterisation of the list endpoint (shared helper). -/
theorem mem_read_expenses (from_date to_date : Option Date)
    (rows : List Expense) (r : Expense) :
    r ∈ read_expenses from_date to_date rows ↔
      r ∈ rows ∧
        (∀ fd, from_date = some fd → toordinal fd ≤ toordinal r.date) ∧
        (∀ td, to_date = some td → toordinal r.date ≤ toordinal td) := by
  unfold read_expenses
  cases from_date <;> cases to_date <;>
    simp [List.mem_filter] <;> tauto

theorem daysBeforeMonth_one (y : Nat) : daysBeforeMonth y 1 = 0 := rfl

theorem daysBeforeMonth_succ (y k : Nat) :
    daysBeforeMonth y (k + 2) = daysBeforeMonth y (k + 1) + daysInMonth y (k + 1) := by
  unfold daysBeforeMonth
  simp [List.range_succ]

theorem daysBeforeMonth_twelve (y : Nat) :
    daysBeforeMonth y 12 = if isLeap y then 335 else 334 := by
  have hr : List.range 11 = [0, 1, 2, 3, 4, 5, 6, 7, 8, 9, 10] := rfl
  cases hL : isLeap y <;>
    simp [daysBeforeMonth, hr, daysInMonth, hL]

theorem isLeap_iff (y : Nat) :
    isLeap y = true ↔ (y % 4 = 0 ∧ (y % 100 ≠ 0 ∨ y % 400 = 0)) := by
  unfold isLeap
  simp [Bool.and_eq_true, beq_iff_eq, Bool.or_eq_true, bne_iff_ne]

set_option maxHeartbeats 1000000 in
theorem daysBeforeYear_succ (y : Nat) (hy : 1 ≤ y) :
    daysBeforeYear (y + 1) = daysBeforeYear y + daysInYear y := by
  unfold daysBeforeYear daysInYear
  by_cases h : isLeap y = true
  · rw [if_pos h]
    rw [isLeap_iff] at h
    omega
  · rw [if_neg h]
    rw [isLeap_iff] at h
    push_neg at h
    omega

/-- The modelled `date(y, m, 1) - timedelta(days=1)` really is the calendar
predecessor: its ordinal is one less than the ordinal of the first of the
month. -/
theorem lastDayPrevMonth_ord (y m : Nat) (hy : 1 ≤ y) (hm1 : 1 ≤ m)
    (hm2 : m ≤ 12) (h11 : ¬(y = 1 ∧ m = 1)) :
    toordinal (lastDayPrevMonth y m) + 1 = toordinal ⟨y, m, 1⟩ := by
  by_cases hm : m = 1
  · subst hm
    obtain ⟨k, rfl⟩ : ∃ k, y = k + 2 := ⟨y - 2, by omega⟩
    have h12 := daysBeforeMonth_twelve (k + 1)
    have hby := daysBeforeYear_succ (k + 1) (by omega)
    simp only [show k + 1 + 1 = k + 2 from by omega] at hby
    have h1 : daysBeforeMonth (k + 2) 1 = 0 := daysBeforeMonth_one _
    unfold daysInYear at hby
    unfold lastDayPrevMonth toordinal
    rw [if_pos rfl]
    dsimp only
    simp only [show k + 2 - 1 = k + 1 from by omega]
    cases hL : isLeap (k + 1)
    · simp [hL] at h12 hby
      omega
    · simp [hL] at h12 hby
      omega
  · obtain ⟨k, rfl⟩ : ∃ k, m = k + 2 := ⟨m - 2, by omega⟩
    have hstep := daysBeforeMonth_succ y k
    unfold lastDayPrevMonth toordinal
    rw [if_neg hm]
    dsimp only
    simp only [show k + 2 - 1 = k + 1 from by omega]
    omega

theorem countMondays_single (a b : Nat) (hab : a ≤ b) (hb : b % 7 = 1)
    (hlt : b < a + 7) : countMondays a b = 1 := by
  unfold countMondays
  have hset : (Finset.Icc a b).filter (fun k => k % 7 = 1) = {b} := by
    ext k
    simp only [Finset.mem_filter, Finset.mem_Icc, Finset.mem_singleton]
    omega
  rw [hset]
  simp

theorem countMondays_step (a s : Nat) (ha : a ≤ s) (hs : s % 7 = 1) :
    countMondays a (s + 7) = countMondays a s + 1 := by
  unfold countMondays
  have hsplit : Finset.Icc a (s + 7) = Finset.Icc a s ∪ Finset.Ioc s (s + 7) := by
    ext k
    simp only [Finset.mem_Icc, Finset.mem_union, Finset.mem_Ioc]
    omega
  have hone : (Finset.Ioc s (s + 7)).filter (fun k => k % 7 = 1) = {s + 7} := by
    ext k
    simp only [Finset.mem_filter, Finset.mem_Ioc, Finset.mem_singleton]
    constructor
    · rintro ⟨⟨h1, h2⟩, h3⟩
      omega
    · rintro rfl
      exact ⟨⟨by omega, le_refl _⟩, by omega⟩
  have hdisj : Disjoint ((Finset.Icc a s).filter (fun k => k % 7 = 1))
      ((Finset.Ioc s (s + 7)).filter (fun k => k % 7 = 1)) := by
    rw [Finset.disjoint_left]
    intro k hk1 hk2
    simp only [Finset.mem_filter, Finset.mem_Icc, Finset.mem_Ioc] at hk1 hk2
    omega
  rw [hsplit, Finset.filter_union, Finset.card_union_of_disjoint hdisj, hone]
  simp

/-- The ordinal `a + (7 - (a + 6) % 7) % 7 + 7 * n` is the `(n+1)`-st Monday
on or after day `a`. -/
theorem countMondays_nth (a n : Nat) :
    countMondays a (a + (7 - (a + 6) % 7) % 7 + 7 * n) = n + 1 := by
  induction n with
  | zero =>
    apply countMondays_single
    · omega
    · omega
    · omega
  | succ m ih =>
    have harr : a + (7 - (a + 6) % 7) % 7 + 7 * (m + 1) =
        (a + (7 - (a + 6) % 7) % 7 + 7 * m) + 7 := by omega
    rw [harr, countMondays_step _ _ (by omega) (by omega), ih]

/-- Shared helper: deleting an id that is present (ids unique) flips out
exactly one record with that id and keeps everything else. -/
theorem delete_expense_existing (eid : Nat) (db : DB)
    (hnd : (db.rows.map (fun r => r.id)).Nodup)
    (hex : ∃ r ∈ db.rows, r.id = eid) :
    ∃ e, e ∈ db.rows ∧ e.id = eid ∧
      (delete_expense eid db).2 = true ∧
      (delete_expense eid db).1.nextId = db.nextId ∧
      db.rows.Perm (e :: (delete_expense eid db).1.rows) ∧
      (∀ r ∈ (delete_expense eid db).1.rows, r ∈ db.rows ∧ r.id ≠ eid) ∧
      (∀ r ∈ db.rows, r.id ≠ eid → r ∈ (delete_expense eid db).1.rows) := by
  obtain ⟨r0, hr0, hid0⟩ := hex
  have hfind : (db.rows.find? (fun r => r.id == eid)).isSome :=
    List.find?_isSome.mpr ⟨r0, hr0, by simp [hid0]⟩
  obtain ⟨e, he⟩ := Option.isSome_iff_exists.mp hfind
  have hpe : (e.id == eid) = true := by
    have := List.find?_some he
    simpa using this
  have hee : e ∈ db.rows := List.mem_of_find?_eq_some he
  obtain ⟨a, l1, l2, hl1, hpa, hsplit, herase⟩ :=
    @List.exists_of_eraseP Expense (fun r => r.id == eid) db.rows e hee hpe
  have hdel : delete_expense eid db =
      (⟨db.rows.eraseP (fun r => r.id == eid), db.nextId⟩, true) := by
    unfold delete_expense
    rw [he]
  have haid : a.id = eid := by simpa using hpa
  have hnd2 : a.id ∉ l2.map (fun r => r.id) := by
    rw [hsplit, List.map_append, List.nodup_append] at hnd
    exact (List.nodup_cons.mp hnd.2.1).1
  refine ⟨a, ?_, haid, by rw [hdel], by rw [hdel], ?_, ?_, ?_⟩
  · rw [hsplit]
    exact List.mem_append_right l1 (List.mem_cons_self a l2)
  · rw [hdel]
    dsimp only
    rw [herase, hsplit]
    exact List.perm_middle
  · intro r hr
    rw [hdel] at hr
    dsimp only at hr
    simp only [herase, List.mem_append] at hr
    constructor
    · rw [hsplit]
      rcases hr with h | h
      · exact List.mem_append_left _ h
      · exact List.mem_append_right _ (List.mem_cons_of_mem a h)
    · rcases hr with h | h
      · intro hc
        exact absurd (by simp [hc] : (r.id == eid) = true) (by simpa using hl1 r h)
      · intro hc
        exact hnd2 (by
          rw [haid, ← hc]
          exact List.mem_map_of_mem (fun r => r.id) h)
  · intro r hr hne
    rw [hdel]
    dsimp only
    simp only [herase, List.mem_append]
    rw [hsplit] at hr
    rcases List.mem_append.mp hr with h | h
    · exact Or.inl h
    · rcases List.mem_cons.mp h with h | h
      · exact absurd (h ▸ haid) hne
      · exact Or.inr h

/-- C2: for every stored set of records and every supplied bound, listing
returns all and only the records with `date ≥ from_date` (when supplied) and
`date ≤ to_date` (when supplied), each bound inclusive and independently
optional; with no bounds it returns every record. -/
theorem read_expenses_date_bounds (from_date to_date : Option Date)
    (rows : List Expense) :
    (∀ r : Expense, r ∈ read_expenses from_date to_date rows ↔
      r ∈ rows ∧
        (∀ fd, from_date = some fd → toordinal fd ≤ toordinal r.date) ∧
        (∀ td, to_date = some td → toordinal r.date ≤ toordinal td)) ∧
    read_expenses none none rows = rows := by
  refine ⟨fun r => mem_read_expenses from_date to_date rows r, rfl⟩

/-- C3: deleting an absent identifier reports NotFound and leaves the store
unchanged; deleting a present identifier returns the confirmation and the
record is absent from every subsequent listing. -/
theorem delete_expense_notfound_or_removes (eid : Nat) (db : DB)
    (hnd : (db.rows.map (fun r => r.id)).Nodup) :
    ((∀ r ∈ db.rows, r.id ≠ eid) → delete_expense eid db = (db, false)) ∧
    ((∃ r ∈ db.rows, r.id = eid) →
      (delete_expense eid db).2 = true ∧
      ∀ fd td r, r ∈ read_expenses fd td (delete_expense eid db).1.rows →
        r.id ≠ eid) := by
  constructor
  · intro habs
    have hnone : db.rows.find? (fun r => r.id == eid) = none := by
      rw [List.find?_eq_none]
      intro r hr
      simpa using habs r hr
    unfold delete_expense
    rw [hnone]
  · intro hex
    obtain ⟨e, _, _, htrue, _, _, hkeep, _⟩ := delete_expense_existing eid db hnd hex
    refine ⟨htrue, fun fd td r hr => ?_⟩
    have hmem : r ∈ (delete_expense eid db).1.rows :=
      ((mem_read_expenses fd td _ r).mp hr).1
    exact (hkeep r hmem).2

/-- C3 witness: on a concrete two-record store, deleting id 7 is a NotFound
no-op and deleting id 1 returns the confirmation. -/
theorem delete_expense_notfound_or_removes_witness :
    delete_expense 7
        ⟨[⟨1, "Lunch", 5, "Food", ⟨2025, 6, 15⟩⟩,
          ⟨2, "Bus", 3, "Transport", ⟨2025, 6, 20⟩⟩], 3⟩ =
      (⟨[⟨1, "Lunch", 5, "Food", ⟨2025, 6, 15⟩⟩,
         ⟨2, "Bus", 3, "Transport", ⟨2025, 6, 20⟩⟩], 3⟩, false) ∧
    (delete_expense 1
        ⟨[⟨1, "Lunch", 5, "Food", ⟨2025, 6, 15⟩⟩,
          ⟨2, "Bus", 3, "Transport", ⟨2025, 6, 20⟩⟩], 3⟩).2 = true := by
  constructor
  · exact (delete_expense_notfound_or_removes 7 _ (by decide)).1 (by decide)
  · exact ((delete_expense_notfound_or_removes 1 _ (by decide)).2
      ⟨⟨1, "Lunch", 5, "Food", ⟨2025, 6, 15⟩⟩, by decide, rfl⟩).1

/-- C9 (frame): deleting an existing identifier removes exactly the single
record with that id — the remaining rows are a permutation-complement of
it, every survivor is an unchanged original with a different id, every
other original survives, and the id counter is untouched. -/
theorem delete_expense_frame (eid : Nat) (db : DB)
    (hnd : (db.rows.map (fun r => r.id)).Nodup)
    (hex : ∃ r ∈ db.rows, r.id = eid) :
    ∃ e, e ∈ db.rows ∧ e.id = eid ∧
      db.rows.Perm (e :: (delete_expense eid db).1.rows) ∧
      (∀ r ∈ (delete_expense eid db).1.rows, r ∈ db.rows ∧ r.id ≠ eid) ∧
      (∀ r ∈ db.rows, r.id ≠ eid → r ∈ (delete_expense eid db).1.rows) ∧
      (delete_expense eid db).1.nextId = db.nextId := by
  obtain ⟨e, h1, h2, _, h4, h5, h6, h7⟩ := delete_expense_existing eid db hnd hex
  exact ⟨e, h1, h2, h5, h6, h7, h4⟩

/-- C9 witness: the frame property applied to a concrete store. -/
theorem delete_expense_frame_witness :
    ∃ e, e ∈ ([⟨1, "Lunch", 5, "Food", ⟨2025, 6, 15⟩⟩,
               ⟨2, "Bus", 3, "Transport", ⟨2025, 6, 20⟩⟩] : List Expense) ∧
      e.id = 2 ∧
      ([⟨1, "Lunch", 5, "Food", ⟨2025, 6, 15⟩⟩,
        ⟨2, "Bus", 3, "Transport", ⟨2025, 6, 20⟩⟩] : List Expense).Perm
        (e :: (delete_expense 2
          ⟨[⟨1, "Lunch", 5, "Food", ⟨2025, 6, 15⟩⟩,
            ⟨2, "Bus", 3, "Transport", ⟨2025, 6, 20⟩⟩], 3⟩).1.rows) := by
  obtain ⟨e, h1, h2, h3, _⟩ := delete_expense_frame 2
    ⟨[⟨1, "Lunch", 5, "Food", ⟨2025, 6, 15⟩⟩,
      ⟨2, "Bus", 3, "Transport", ⟨2025, 6, 20⟩⟩], 3⟩ (by decide)
    ⟨⟨2, "Bus", 3, "Transport", ⟨2025, 6, 20⟩⟩, by decide, rfl⟩
  exact ⟨e, h1, h2, h3⟩

/-- C7: creating a record and then listing with no filters yields that
record, fully populated, with a system-assigned id of at least 1 that is
fresh with respect to the stored rows. -/
theorem create_then_list_roundtrip (inp : ExpenseCreate) (db : DB)
    (h : DB.WF db) :
    1 ≤ (create_expense inp db).2.id ∧
    (create_expense inp db).2 ∈
      read_expenses none none (create_expense inp db).1.rows ∧
    (create_expense inp db).2.title = inp.title ∧
    (create_expense inp db).2.amount = inp.amount ∧
    (create_expense inp db).2.category = inp.category ∧
    (create_expense inp db).2.date = inp.date ∧
    (∀ r ∈ db.rows, r.id ≠ (create_expense inp db).2.id) ∧
    DB.WF (create_expense inp db).1 := by
  obtain ⟨h1, h2⟩ := h
  unfold create_expense read_expenses DB.WF
  dsimp only
  refine ⟨h1, ?_, rfl, rfl, rfl, rfl, ?_, by omega, ?_⟩
  · simp
  · intro r hr
    exact Nat.ne_of_lt (h2 r hr)
  · intro r hr
    rcases List.mem_append.mp hr with hr | hr
    · exact Nat.lt_succ_of_lt (h2 r hr)
    · simp only [List.mem_singleton] at hr
      subst hr
      exact Nat.lt_succ_self _

/-- C7 witness: the round trip on a concrete fresh store. -/
theorem create_then_list_roundtrip_witness :
    1 ≤ (create_expense ⟨"Lunch", 25/2, "Food", ⟨2025, 6, 15⟩⟩ ⟨[], 1⟩).2.id ∧
    (create_expense ⟨"Lunch", 25/2, "Food", ⟨2025, 6, 15⟩⟩ ⟨[], 1⟩).2 ∈
      read_expenses none none
        (create_expense ⟨"Lunch", 25/2, "Food", ⟨2025, 6, 15⟩⟩ ⟨[], 1⟩).1.rows := by
  obtain ⟨h1, h2, _⟩ := create_then_list_roundtrip
    ⟨"Lunch", 25/2, "Food", ⟨2025, 6, 15⟩⟩ ⟨[], 1⟩ ⟨le_refl 1, by simp⟩
  exact ⟨h1, h2⟩

/-- Shared helper: on the domain where both `date` constructions succeed,
`monthly_summary` returns the rounded sum over the half-open window
`[specMonthStart, specMonthEnd)`. -/
theorem monthly_summary_eq (year month : Int) (rows : List Expense)
    (hm1 : 1 ≤ month) (hm2 : month ≤ 12) (hy1 : 1 ≤ year) (hy2 : year ≤ 9999)
    (htop : ¬(year = 9999 ∧ month = 12)) :
    monthly_summary year month rows =
      some { year := year, month := month,
             total_expense := round2 (((rows.filter (fun r =>
               decide (toordinal (specMonthStart year month) ≤ toordinal r.date ∧
                       toordinal r.date < toordinal (specMonthEnd year month)))).map
               (fun r => r.amount)).sum) } := by
  have hstart := mkDate_day1 year month hy1 hy2 hm1 hm2
  by_cases h12 : month = 12
  · subst h12
    have hend := mkDate_day1 (year + 1) 1 (by omega) (by omega) (by omega) (by omega)
    have hcast : (year + 1).toNat = year.toNat + 1 := by omega
    unfold monthly_summary
    rw [hstart, if_pos rfl, hend, hcast]
    simp [specMonthStart, specMonthEnd]
  · have hend := mkDate_day1 year (month + 1) hy1 hy2 (by omega) (by omega)
    have hcast : (month + 1).toNat = month.toNat + 1 := by omega
    unfold monthly_summary
    rw [if_neg h12, hstart, hend, hcast]
    simp only [specMonthStart, specMonthEnd, if_neg h12]

/-- Shared helper: on the domain where `strptime` and the 7-day shift
succeed, `weekly_summary` returns the rounded sum over the half-open window
`[start, start + 7)`. -/
theorem weekly_summary_eq (year week : Int) (rows : List Expense)
    (hy1 : 1000 ≤ year) (hy2 : year ≤ 9999) (hw0 : 0 ≤ week) (hw53 : week ≤ 53)
    (hrng : 1 ≤ strptimeYWMonday year.toNat week.toNat ∧
            strptimeYWMonday year.toNat week.toNat + 7 ≤ (maxOrdinal : Int)) :
    weekly_summary year week rows =
      some { year := year, week := week,
             total_expense := round2 (((rows.filter (fun r =>
               decide (strptimeYWMonday year.toNat week.toNat ≤ (toordinal r.date : Int) ∧
                       (toordinal r.date : Int) <
                         strptimeYWMonday year.toNat week.toNat + 7))).map
               (fun r => r.amount)).sum) } := by
  unfold weekly_summary
  rw [if_pos ⟨hy1, hy2, hw0, hw53⟩, if_pos hrng]

/-- C1: for every year and month (on the domain where the two `date`
constructions succeed), the monthly summary is the rounded sum of `amount`
over exactly the records with `start ≤ date < end`, `start` the first day of
the month and `end` the first day of the following month with December
rolling over to January 1 of the next year; appending a record dated on the
first day of the next month leaves the total unchanged. -/
theorem monthly_summary_halfopen_window (year month : Int) (rows : List Expense)
    (hm1 : 1 ≤ month) (hm2 : month ≤ 12) (hy1 : 1 ≤ year) (hy2 : year ≤ 9999)
    (htop : ¬(year = 9999 ∧ month = 12)) :
    monthly_summary year month rows =
      some { year := year, month := month,
             total_expense := round2 (((rows.filter (fun r =>
               decide (toordinal (specMonthStart year month) ≤ toordinal r.date ∧
                       toordinal r.date < toordinal (specMonthEnd year month)))).map
               (fun r => r.amount)).sum) } ∧
    ∀ e : Expense, toordinal e.date = toordinal (specMonthEnd year month) →
      monthly_summary year month (rows ++ [e]) =
        monthly_summary year month rows := by
  refine ⟨monthly_summary_eq year month rows hm1 hm2 hy1 hy2 htop, ?_⟩
  intro e he
  rw [monthly_summary_eq year month rows hm1 hm2 hy1 hy2 htop,
    monthly_summary_eq year month (rows ++ [e]) hm1 hm2 hy1 hy2 htop]
  have hpred : decide (toordinal (specMonthStart year month) ≤ toordinal e.date ∧
      toordinal e.date < toordinal (specMonthEnd year month)) = false := by
    rw [decide_eq_false_iff_not]
    omega
  rw [List.filter_append]
  simp only [List.filter_cons, hpred, Bool.false_eq_true, if_false,
    List.filter_nil, List.append_nil]

/-- C1 witness: June 2025 totals 15.75 over the spec's concrete records and
ignores a record dated 2025-07-01. -/
theorem monthly_summary_halfopen_window_witness :
    monthly_summary 2025 6
        [⟨1, "Lunch", 25/2, "Food", ⟨2025, 6, 15⟩⟩,
         ⟨2, "Bus", 13/4, "Transport", ⟨2025, 6, 20⟩⟩] =
      some { year := 2025, month := 6, total_expense := 63/4 } ∧
    monthly_summary 2025 6
        [⟨1, "Lunch", 25/2, "Food", ⟨2025, 6, 15⟩⟩,
         ⟨2, "Bus", 13/4, "Transport", ⟨2025, 6, 20⟩⟩,
         ⟨3, "July", 100, "Food", ⟨2025, 7, 1⟩⟩] =
      monthly_summary 2025 6
        [⟨1, "Lunch", 25/2, "Food", ⟨2025, 6, 15⟩⟩,
         ⟨2, "Bus", 13/4, "Transport", ⟨2025, 6, 20⟩⟩] := by
  have h := monthly_summary_halfopen_window 2025 6
    [⟨1, "Lunch", 25/2, "Food", ⟨2025, 6, 15⟩⟩,
     ⟨2, "Bus", 13/4, "Transport", ⟨2025, 6, 20⟩⟩]
    (by decide) (by decide) (by decide) (by decide) (by decide)
  refine ⟨?_, h.2 ⟨3, "July", 100, "Food", ⟨2025, 7, 1⟩⟩ (by decide)⟩
  rw [h.1]
  have hfilter : List.filter (fun (r : Expense) =>
      decide (toordinal (specMonthStart 2025 6) ≤ toordinal r.date ∧
              toordinal r.date < toordinal (specMonthEnd 2025 6)))
      ([⟨1, "Lunch", 25/2, "Food", ⟨2025, 6, 15⟩⟩,
        ⟨2, "Bus", 13/4, "Transport", ⟨2025, 6, 20⟩⟩] : List Expense) =
      ([⟨1, "Lunch", 25/2, "Food", ⟨2025, 6, 15⟩⟩,
        ⟨2, "Bus", 13/4, "Transport", ⟨2025, 6, 20⟩⟩] : List Expense) := rfl
  rw [hfilter]
  simp only [List.map_cons, List.map_nil, List.sum_cons, List.sum_nil,
    Option.some.injEq, MonthlyOut.mk.injEq]
  norm_num [round2]

/-- C6: a monthly summary whose window contains no stored record reports
`total_expense = 0.0`, and likewise a weekly summary whose window contains
no stored record. -/
theorem summaries_zero_on_empty_window (year month week : Int)
    (rows : List Expense)
    (hm1 : 1 ≤ month) (hm2 : month ≤ 12) (hy1 : 1000 ≤ year) (hy2 : year ≤ 9999)
    (htop : ¬(year = 9999 ∧ month = 12))
    (hw0 : 0 ≤ week) (hw53 : week ≤ 53)
    (hrng : 1 ≤ strptimeYWMonday year.toNat week.toNat ∧
            strptimeYWMonday year.toNat week.toNat + 7 ≤ (maxOrdinal : Int))
    (hme : ∀ r ∈ rows, ¬(toordinal (specMonthStart year month) ≤ toordinal r.date ∧
            toordinal r.date < toordinal (specMonthEnd year month)))
    (hwe : ∀ r ∈ rows, ¬(strptimeYWMonday year.toNat week.toNat ≤ (toordinal r.date : Int) ∧
            (toordinal r.date : Int) < strptimeYWMonday year.toNat week.toNat + 7)) :
    monthly_summary year month rows =
      some { year := year, month := month, total_expense := 0 } ∧
    weekly_summary year week rows =
      some { year := year, week := week, total_expense := 0 } := by
  constructor
  · rw [monthly_summary_eq year month rows hm1 hm2 (by omega) hy2 htop]
    have hnil : rows.filter (fun r =>
        decide (toordinal (specMonthStart year month) ≤ toordinal r.date ∧
                toordinal r.date < toordinal (specMonthEnd year month))) = [] := by
      rw [List.filter_eq_nil]
      intro r hr
      simpa using hme r hr
    rw [hnil]
    simp [round2_zero]
  · rw [weekly_summary_eq year week rows hy1 hy2 hw0 hw53 hrng]
    have hnil : rows.filter (fun r =>
        decide (strptimeYWMonday year.toNat week.toNat ≤ (toordinal r.date : Int) ∧
                (toordinal r.date : Int) <
                  strptimeYWMonday year.toNat week.toNat + 7)) = [] := by
      rw [List.filter_eq_nil]
      intro r hr
      simpa using hwe r hr
    rw [hnil]
    simp [round2_zero]

/-- C6 witness: June 2025 and week 23 of 2025 with a single record far
outside both windows total 0.0. -/
theorem summaries_zero_on_empty_window_witness :
    monthly_summary 2025 6 [⟨1, "Old", 9, "Misc", ⟨2024, 1, 5⟩⟩] =
      some { year := 2025, month := 6, total_expense := 0 } ∧
    weekly_summary 2025 23 [⟨1, "Old", 9, "Misc", ⟨2024, 1, 5⟩⟩] =
      some { year := 2025, week := 23, total_expense := 0 } :=
  summaries_zero_on_empty_window 2025 6 23 [⟨1, "Old", 9, "Misc", ⟨2024, 1, 5⟩⟩]
    (by decide) (by decide) (by decide) (by decide) (by decide) (by decide)
    (by decide) (by decide) (by decide) (by decide)

/-- C10 counterexample: month 6 is inside 1–12, yet the first-of-month date
construction fails for year 10000 (`date(10000, 6, 1)` raises), so the claim
"for months 1–12 the date construction always succeeds" is false as
stated. -/
theorem monthly_summary_inrange_month_can_fail :
    monthly_summary 10000 6 [] = none := by decide

/-- C10 (amended): a month outside 1–12 makes the first-of-month
construction fail, so the handler fails before consulting the store (it
returns no total for any stored rows); for months 1–12 the date
constructions succeed — and a result is returned — provided the year is in
1–9999 and (year, month) ≠ (9999, 12). -/
theorem monthly_summary_month_validity (year month : Int)
    (rows : List Expense) :
    ((month < 1 ∨ 12 < month) →
      mkDate year month 1 = none ∧ monthly_summary year month rows = none) ∧
    (1 ≤ month → month ≤ 12 → 1 ≤ year → year ≤ 9999 →
      ¬(year = 9999 ∧ month = 12) →
      (monthly_summary year month rows).isSome = true) := by
  constructor
  · intro hm
    have hnone : mkDate year month 1 = none := by
      unfold mkDate
      rw [if_neg]
      rintro ⟨-, -, h3, h4, -⟩
      omega
    refine ⟨hnone, ?_⟩
    unfold monthly_summary
    rw [hnone]
  · intro hm1 hm2 hy1 hy2 htop
    rw [monthly_summary_eq year month rows hm1 hm2 hy1 hy2 htop]
    rfl

/-- C10 witness: month 13 fails for every store; month 6 of 2025
succeeds. -/
theorem monthly_summary_month_validity_witness :
    monthly_summary 2025 13 [⟨1, "Lunch", 5, "Food", ⟨2025, 6, 15⟩⟩] = none ∧
    (monthly_summary 2025 6 [⟨1, "Lunch", 5, "Food", ⟨2025, 6, 15⟩⟩]).isSome = true :=
  ⟨((monthly_summary_month_validity 2025 13
      [⟨1, "Lunch", 5, "Food", ⟨2025, 6, 15⟩⟩]).1 (by omega)).2,
   (monthly_summary_month_validity 2025 6
      [⟨1, "Lunch", 5, "Food", ⟨2025, 6, 15⟩⟩]).2 (by omega) (by omega)
      (by omega) (by omega) (by omega)⟩

/-- Spec §4.6: the inclusive last-month window derived from the current
date — `first_day_last_month ≤ d ≤ last_day_last_month`. -/
def lastMonthWindow (today d : Date) : Prop :=
  toordinal ⟨(lastDayPrevMonth today.year today.month).year,
             (lastDayPrevMonth today.year today.month).month, 1⟩ ≤ toordinal d ∧
  toordinal d ≤ toordinal (lastDayPrevMonth today.year today.month)

instance (today d : Date) : Decidable (lastMonthWindow today d) := by
  unfold lastMonthWindow; infer_instance

/-- C4: the last-month category summary (window derived from the call-time
date) sums `amount` per category over the inclusive range
`first_day_last_month ≤ date ≤ last_day_last_month`: every reported pair is
a category with at least one record in the window and carries the rounded
sum of that category's amounts in the window; a category with no record in
the window is absent from the output; and a record dated on the last
calendar day of the previous month is counted (its category is
reported). -/
theorem category_summary_last_month_spec (today : Date) (rows : List Expense)
    (hv : today.Valid) (h11 : ¬(today.year = 1 ∧ today.month = 1)) :
    ∃ out, category_summary_last_month today rows = some out ∧
      (∀ c t, (c, t) ∈ out.category_wise_total →
        (∃ r ∈ rows, r.category = c ∧ lastMonthWindow today r.date) ∧
        t = round2 ((((rows.filter (fun r =>
              decide (toordinal ⟨(lastDayPrevMonth today.year today.month).year,
                        (lastDayPrevMonth today.year today.month).month, 1⟩ ≤
                        toordinal r.date ∧
                      toordinal r.date ≤
                        toordinal (lastDayPrevMonth today.year today.month)))).filter
            (fun r => r.category == c)).map (fun r => r.amount)).sum)) ∧
      (∀ c, (∀ r ∈ rows, r.category = c → ¬lastMonthWindow today r.date) →
        ∀ t, (c, t) ∉ out.category_wise_total) ∧
      (∀ r ∈ rows,
        toordinal r.date = toordinal (lastDayPrevMonth today.year today.month) →
        ∃ t, (r.category, t) ∈ out.category_wise_total) := by
  unfold category_summary_last_month
  rw [if_neg h11]
  refine ⟨_, rfl, ?_, ?_, ?_⟩
  · intro c t hmem
    simp only [List.mem_map] at hmem
    obtain ⟨c', hc', heq⟩ := hmem
    obtain ⟨rfl, rfl⟩ : c' = c ∧
        round2 ((((rows.filter _).filter (fun r => r.category == c')).map
          (fun r => r.amount)).sum) = t := by
      exact ⟨congrArg Prod.fst heq, congrArg Prod.snd heq⟩
    rw [List.mem_dedup] at hc'
    simp only [List.mem_map] at hc'
    obtain ⟨r, hr, hcat⟩ := hc'
    rw [List.mem_filter] at hr
    refine ⟨⟨r, hr.1, hcat, ?_⟩, rfl⟩
    have := of_decide_eq_true hr.2
    exact this
  · intro c hnone t hmem
    simp only [List.mem_map] at hmem
    obtain ⟨c', hc', heq⟩ := hmem
    have hcc : c' = c := congrArg Prod.fst heq
    subst hcc
    rw [List.mem_dedup] at hc'
    simp only [List.mem_map] at hc'
    obtain ⟨r, hr, hcat⟩ := hc'
    rw [List.mem_filter] at hr
    exact hnone r hr.1 hcat (of_decide_eq_true hr.2)
  · intro r hr hlast
    have hday : 1 ≤ (lastDayPrevMonth today.year today.month).day := by
      have := daysInMonth_ge today.year (today.month - 1)
      unfold lastDayPrevMonth
      split <;> dsimp only <;> omega
    have hwin : lastMonthWindow today r.date := by
      unfold lastMonthWindow
      unfold toordinal at hlast ⊢
      dsimp only
      omega
    have hrm : r ∈ rows.filter (fun r =>
        decide (toordinal ⟨(lastDayPrevMonth today.year today.month).year,
                  (lastDayPrevMonth today.year today.month).month, 1⟩ ≤
                  toordinal r.date ∧
                toordinal r.date ≤
                  toordinal (lastDayPrevMonth today.year today.month))) := by
      rw [List.mem_filter]
      exact ⟨hr, decide_eq_true hwin⟩
    refine ⟨_, List.mem_map_of_mem _ (List.mem_dedup.mpr
      (List.mem_map_of_mem (fun r => r.category) hrm))⟩

/-- C4 witness: the spec's concrete scenario — a July 3, 2025 call over June
records, including one dated June 30 (the last day of the previous
month). -/
theorem category_summary_last_month_spec_witness :
    ∃ out, category_summary_last_month ⟨2025, 7, 3⟩
        [⟨1, "Lunch", 25/2, "Food", ⟨2025, 6, 15⟩⟩,
         ⟨2, "Bus", 13/4, "Transport", ⟨2025, 6, 30⟩⟩] = some out ∧
      ∃ t, ("Transport", t) ∈ out.category_wise_total := by
  obtain ⟨out, hout, _, _, hlast⟩ := category_summary_last_month_spec ⟨2025, 7, 3⟩
    [⟨1, "Lunch", 25/2, "Food", ⟨2025, 6, 15⟩⟩,
     ⟨2, "Bus", 13/4, "Transport", ⟨2025, 6, 30⟩⟩]
    (by decide) (by decide)
  exact ⟨out, hout, hlast ⟨2, "Bus", 13/4, "Transport", ⟨2025, 6, 30⟩⟩
    (List.mem_cons_of_mem _ (List.mem_cons_self _ _)) (by decide)⟩

/-- C5: for weeks 1–53, the weekly summary's start date is a Monday and is
characterised by the `%W` numbering — the count of Mondays from January 1 of
`year` up to and including the start date equals `week` — and the reported
total is the rounded sum over the half-open window
`start ≤ date < start + 7 days`. -/
theorem weekly_summary_week_numbering (year week : Int) (rows : List Expense)
    (hy1 : 1000 ≤ year) (hy2 : year ≤ 9999) (hw1 : 1 ≤ week) (hw53 : week ≤ 53)
    (hmax : strptimeYWMonday year.toNat week.toNat + 7 ≤ (maxOrdinal : Int)) :
    ∃ s : Nat,
      strptimeYWMonday year.toNat week.toNat = (s : Int) ∧
      s % 7 = 1 ∧
      countMondays (jan1Ord year.toNat) s = week.toNat ∧
      weekly_summary year week rows =
        some { year := year, week := week,
               total_expense := round2 (((rows.filter (fun r =>
                 decide ((s : Int) ≤ (toordinal r.date : Int) ∧
                         (toordinal r.date : Int) < (s : Int) + 7))).map
                 (fun r => r.amount)).sum) } := by
  have hwn : 1 ≤ week.toNat := by omega
  have h0 : ¬(week.toNat = 0) := by omega
  have hs : strptimeYWMonday year.toNat week.toNat =
      ((jan1Ord year.toNat + (7 - (jan1Ord year.toNat + 6) % 7) % 7 +
        7 * (week.toNat - 1) : Nat) : Int) := by
    unfold strptimeYWMonday firstWeekday
    simp only [h0, if_false]
    split
    · omega
    · omega
  refine ⟨jan1Ord year.toNat + (7 - (jan1Ord year.toNat + 6) % 7) % 7 +
    7 * (week.toNat - 1), hs, by omega, ?_, ?_⟩
  · have hcount := countMondays_nth (jan1Ord year.toNat) (week.toNat - 1)
    rw [hcount]
    omega
  · have h1s : 1 ≤ strptimeYWMonday year.toNat week.toNat := by
      rw [hs]
      omega
    rw [weekly_summary_eq year week rows hy1 hy2 (by omega) (by omega)
      ⟨h1s, hmax⟩, hs]

/-- C5 witness: week 23 of 2025 starts on Monday 2025-06-09, the 23rd Monday
counted from 2025-01-01, and sums exactly the records of that week. -/
theorem weekly_summary_week_numbering_witness :
    ∃ s : Nat,
      strptimeYWMonday 2025 23 = (s : Int) ∧
      s % 7 = 1 ∧
      countMondays (jan1Ord 2025) s = 23 ∧
      weekly_summary 2025 23 [⟨1, "InWeek", 5, "Food", ⟨2025, 6, 9⟩⟩] =
        some { year := 2025, week := 23,
               total_expense := round2 ((([⟨1, "InWeek", 5, "Food",
                 ⟨2025, 6, 9⟩⟩] : List Expense).filter (fun r =>
                 decide ((s : Int) ≤ (toordinal r.date : Int) ∧
                         (toordinal r.date : Int) < (s : Int) + 7))).map
                 (fun r => r.amount)).sum } := by
  have h := weekly_summary_week_numbering 2025 23
    [⟨1, "InWeek", 5, "Food", ⟨2025, 6, 9⟩⟩]
    (by omega) (by omega) (by omega) (by omega) (by decide)
  obtain ⟨s, h1, h2, h3, h4⟩ := h
  exact ⟨s, by exact_mod_cast h1, h2, by exact_mod_cast h3, h4⟩

end ExpenseTracker
